import Mathlib

/-!
The Splunk client of stailf (`splunk/util.go`, `splunk/splunk.go`)

A shallow embedding of the client library of `stailf` and the properties of
its job submission, error surfacing, authentication and event streaming loop.

Conventions of the embedding.

* A Go `string` is an immutable sequence of bytes: `GoString := List Byte`.
  Source literals are written `str "..."` (ASCII text).
* A Go `error` value is represented by its message (`GoError`).
* The two loop counters of `StreamEvents` have type `int` (64 bits on 64-bit
  platforms).  `offset` grows by the number of records received and `backoff`
  by one per poll, polls being at least 500ms apart, so neither comes near
  the wrap-around; they are modelled by unbounded integers.
* Functions of the Go standard library that the client calls (JSON decoding,
  form encoding, request construction) are parameters, collected in `Lib`.
  The network is a parameter as well: a function from the request to the
  outcome of `http.Client.Do`.
* A run-time panic is an explicit outcome (`Ret.panic`).
* The goroutine of `StreamEvents` is described by the sequence of its steps
  (`Action`).  What other goroutines do is given by a `Schedule`: the value of
  `stopped` each evaluation of the loop condition reads, and whether a `select`
  receives from `stopCh` before its timer fires.  The consumer is taken to
  receive every item sent on the unbuffered channel.
-/

namespace Splunk

/-! ## Strings, errors, values -/

abbrev Byte := Fin 256

abbrev GoString := List Byte

/-- Bytes of an ASCII literal of the source. -/
def str (s : String) : GoString := s.toList.map (fun c => (Fin.ofNat c.toNat : Fin 256))

/-- Go error value, identified by the text `Error()` returns. -/
structure GoError where
  text : GoString
deriving DecidableEq, Repr

/-- The call `errors.New(text)`. -/
def errors_New (text : GoString) : GoError := ⟨text⟩

/-- The function `strings.HasPrefix`:
`len(s) >= len(prefix) && s[0:len(prefix)] == prefix`. -/
def strings_HasPrefix (s pfx : GoString) : Bool :=
  decide (s.length ≥ pfx.length) && (s.take pfx.length == pfx)

/-- The function `strings.Join`: the elements separated by `sep`. -/
def strings_Join : List GoString → GoString → GoString
  | [], _ => []
  | [a], _ => a
  | a :: b :: rest, sep => a ++ sep ++ strings_Join (b :: rest) sep

/-- Dynamic value held in an `interface {}`.  `other t s` stands for a value
of any further dynamic type `t`, whose `%v` rendering is `s`. -/
inductive Value where
  | string (s : GoString)
  | int (n : Int)
  | bool (b : Bool)
  | nil
  | other (typeName : GoString) (rendering : GoString)
deriving DecidableEq, Repr

/-- The type `Param`, a `map[string]interface{}`: the entries in the order in
which `range` visits them; the keys of a map are pairwise distinct. -/
abbrev Param := List (GoString × Value)

/-- Map index expression `params[key]` in its two-result form. -/
def Param.get (params : Param) (key : GoString) : Option Value :=
  params.lookup key

/-- Decimal digits of a natural number, as bytes. -/
def decimal (n : Nat) : GoString :=
  (Nat.toDigits 10 n).map (fun c => (Fin.ofNat c.toNat : Fin 256))

/-- The function `strconv.Itoa`. -/
def strconv_Itoa (n : Int) : GoString :=
  if n < 0 then str "-" ++ decimal n.natAbs else decimal n.natAbs

/-- Rendering of a value by `fmt.Sprintf("%v", v)`. -/
def fmt_v : Value → GoString
  | .string s => s
  | .int n => strconv_Itoa n
  | .bool true => str "true"
  | .bool false => str "false"
  | .nil => str "<nil>"
  | .other _ s => s

/-! ## `util.go`: backoff delay -/

/-- A `time.Duration`, in nanoseconds. -/
abbrev Duration := Int

def Millisecond : Duration := 1000000

def Second : Duration := 1000 * Millisecond

def MaxBackoff : Int := 4

/-- The expression `time.Duration(math.Exp2(float64(b)))` for an integer
`b <= MaxBackoff`: `math.Exp2` is exact at integer arguments of this size, so
the result is `2^b` for `b >= 0`, and for `b < 0` the value `2^b < 1` is
truncated to `0` by the conversion. -/
def durationExp2 (b : Int) : Duration :=
  if 0 ≤ b then (2 : Int) ^ b.toNat else 0

/-- The function `exp` of `util.go`. -/
def exp (backoff : Int) : Duration :=
  let backoff := if backoff ≥ MaxBackoff then MaxBackoff else backoff
  500 * Millisecond * durationExp2 backoff

/-! ## `util.go`: job identifiers -/

/-- The digit table `ldigits` of package `fmt`. -/
def ldigits : GoString := str "0123456789abcdefx"

/-- Two hexadecimal digits of one byte, as `%x` prints it:
`digits[c>>4], digits[c&0xF]`. -/
def hexByte (c : Byte) : GoString :=
  [ldigits.getD (c.val / 16) 0, ldigits.getD (c.val % 16) 0]

/-- The verb `%x` applied to a byte slice. -/
def fmt_x (b : List Byte) : GoString := b.flatMap hexByte

/-- What the random source does in one call of `genID`: the result of
`os.Open("/dev/urandom")`, and for `f.Read(b)` the bytes it delivered to the
front of the buffer together with the error it returned. -/
structure Urandom where
  openErr : Option GoError
  readData : List Byte
  readErr : Option GoError
deriving DecidableEq, Repr

/-- The buffer `b := make([]byte, 5)` after `f.Read(b)`: the bytes read
replace the front of the zeroed buffer. -/
def readInto (buf data : List Byte) : List Byte :=
  data.take buf.length ++ buf.drop data.length

/-- The function `genID` of `util.go`; returns the pair `(id, err)`. -/
def genID (rnd : Urandom) (params : Param) (suffix : GoString) : GoString × Option GoError :=
  match rnd.openErr with
  | some err => ([], some err)
  | none =>
    let b := readInto (List.replicate 5 (0 : Byte)) rnd.readData
    let pfx : GoString :=
      match params.get (str "search_mode") with
      | some v => if v = Value.string (str "realtime") then str "rt_" else []
      | none => []
    (pfx ++ fmt_x b ++ str "." ++ suffix, none)

/-! ## `splunk.go`: data -/

structure msg where
  Type_ : GoString
  Text : GoString
deriving DecidableEq, Repr

structure result where
  ConfStr : GoString
  IndexTime : GoString
  Raw : GoString
  Serial : GoString
  SourceTypeRaw : GoString
  Time : GoString
  Host : GoString
  Index : GoString
  LineCount : GoString
  Source : GoString
  SourceType : GoString
  SplunkServer : GoString
deriving DecidableEq, Repr

/-- The type `Events`; the slices hold pointers, `none` is a nil pointer. -/
structure Events where
  Offset : Int
  Messages : List (Option msg)
  Results : List (Option result)
deriving DecidableEq, Repr

structure messages where
  Messages : List (Option msg)
deriving DecidableEq, Repr

structure searchJob where
  Id : GoString
deriving DecidableEq, Repr

structure session where
  Key : GoString
deriving DecidableEq, Repr

/-- The type `SplunkClient`.  The field `client` is the network parameter of
the calls below; the channel `stopCh` and the reads of `stopped` by the
streaming goroutine are given by the `Schedule` of a run. -/
structure SplunkClient where
  baseURL : GoString
  username : GoString
  password : GoString
  stopped : Bool
  session : session
deriving DecidableEq, Repr

/-- The function `NewClient`. -/
def NewClient (username password url : GoString) : SplunkClient :=
  { baseURL := url, username := username, password := password,
    stopped := false, session := ⟨[]⟩ }

/-! ## HTTP requests and responses -/

/-- The type `url.Values`, a `map[string][]string`; an absent key maps to the
empty slice. -/
abbrev Values := GoString → List GoString

/-- The map `url.Values(nil)`. -/
def Values.empty : Values := fun _ => []

/-- Composite literal with one value per listed key. -/
def Values.ofList (l : List (GoString × GoString)) : Values :=
  fun key => match l.lookup key with
    | some v => [v]
    | none => []

/-- The method `Values.Add`: `v[key] = append(v[key], value)`. -/
def Values.Add (v : Values) (key value : GoString) : Values :=
  fun k => if k = key then v k ++ [value] else v k

/-- The method `Values.Get`: the first value of the key, or the empty string. -/
def Values.Get (v : Values) (key : GoString) : GoString :=
  (v key).headD []

/-- The type `http.Header`. -/
abbrev Header := GoString → List GoString

/-- The method `Header.Set`, for a key in canonical form. -/
def Header.Set (h : Header) (key value : GoString) : Header :=
  fun k => if k = key then [value] else h k

/-- The method `Header.Get`, for a key in canonical form. -/
def Header.Get (h : Header) (key : GoString) : GoString :=
  (h key).headD []

structure Request where
  Method : GoString
  URL : GoString
  Body : GoString
  Header : Header

structure Response where
  StatusCode : Int
  Body : GoString
deriving DecidableEq, Repr

/-- The alphabet of `base64.StdEncoding`. -/
def encodeStd : GoString :=
  str "ABCDEFGHIJKLMNOPQRSTUVWXYZabcdefghijklmnopqrstuvwxyz0123456789+/"

def b64 (n : Nat) : Byte := encodeStd.getD (n % 64) 0

/-- The method `base64.StdEncoding.EncodeToString`. -/
def base64_EncodeToString : List Byte → GoString
  | [] => []
  | [a] => [b64 (a.val / 4), b64 (a.val % 4 * 16)] ++ str "=="
  | [a, b] => [b64 (a.val / 4), b64 (a.val % 4 * 16 + b.val / 16), b64 (b.val % 16 * 4)] ++ str "="
  | a :: b :: c :: rest =>
    [b64 (a.val / 4), b64 (a.val % 4 * 16 + b.val / 16),
      b64 (b.val % 16 * 4 + c.val / 64), b64 (c.val % 64)] ++ base64_EncodeToString rest

/-- The method `Request.SetBasicAuth`:
`Authorization: Basic base64(username:password)`. -/
def Request.SetBasicAuth (req : Request) (username password : GoString) : Request :=
  let auth := str "Basic " ++ base64_EncodeToString (username ++ str ":" ++ password)
  { req with Header := req.Header.Set (str "Authorization") auth }

/-- Decoding of a response body into a target of type `α` by
`json.NewDecoder(body).Decode(&v)`: the target after the call, and the error. -/
abbrev Decoder (α : Type) := GoString → α → α × Option GoError

/-- Functions of the standard library used by the client. -/
structure Lib where
  /-- The method `url.Values.Encode`. -/
  Encode : Values → GoString
  /-- The error of `http.NewRequest` for a method and URL, if it rejects them. -/
  NewRequestErr : GoString → GoString → Option GoError
  jsonMessages : Decoder messages
  jsonSession : Decoder session
  jsonSearchJob : Decoder searchJob
  jsonEvents : Decoder Events

/-- The network: outcome of `http.Client.Do` for a request. -/
abbrev Network := Request → Except GoError Response

/-- Outcome of a call that returns an `error`: `nil`, a non-nil error, or a
run-time panic. -/
inductive Ret where
  | nil
  | err (e : GoError)
  | panic
deriving DecidableEq, Repr

/-- Result of a client call: the value returned, the error, and the requests
handed to the HTTP client during the call. -/
structure Call (α : Type) where
  val : α
  err : Ret
  reqs : List Request

/-! ## `util.go`: response handling -/

/-- The function `readJSON`. -/
def readJSON {α : Type} (dec : Decoder α) (r : Response) (v : α) : α × Option GoError :=
  dec r.Body v

/-- The function `isStatusOK`. -/
def isStatusOK (lib : Lib) (r : Response) : Ret :=
  if r.StatusCode > 299 then
    match readJSON lib.jsonMessages r ⟨[]⟩ with
    | (_, some err) => .err err
    | (m, none) =>
      if m.Messages.length > 0 then
        match m.Messages.head? with
        | some (some first) => .err (errors_New first.Text)
        | _ => .panic
      else
        .err (errors_New (str "No error messages returned from splunk"))
  else
    .nil

/-! ## `splunk.go`: transport -/

/-- The method `newRequest`. -/
def SplunkClient.newRequest (lib : Lib) (sc : SplunkClient) (method url : GoString)
    (data : Values) : Except GoError Request :=
  match lib.NewRequestErr method url with
  | some err => .error err
  | none =>
    let req : Request :=
      { Method := method, URL := url, Body := lib.Encode data, Header := fun _ => [] }
    if sc.session.Key ≠ [] then
      let auth := str "Splunk" ++ str " " ++ sc.session.Key
      .ok { req with Header := req.Header.Set (str "Authorization") auth }
    else
      .ok (req.SetBasicAuth sc.username sc.password)

/-- The second half of `send`, from `sc.client.Do(req)` on: the request is
sent, the status is checked, and the body is decoded into the target `v` or
discarded. -/
def exchange {α : Type} (lib : Lib) (net : Network) (dec : Decoder α) (req : Request)
    (v : Option α) : Call (Option α) :=
  match net req with
  | .error err => ⟨v, .err err, [req]⟩
  | .ok resp =>
    match isStatusOK lib resp with
    | .err err => ⟨v, .err err, [req]⟩
    | .panic => ⟨v, .panic, [req]⟩
    | .nil =>
      match v with
      | some t =>
        match readJSON dec resp t with
        | (t, some err) => ⟨some t, .err err, [req]⟩
        | (t, none) => ⟨some t, .nil, [req]⟩
      | none => ⟨none, .nil, [req]⟩

/-- The method `send`; `v` is the output target (`none` for a nil interface),
the value returned is the target after the call. -/
def SplunkClient.send {α : Type} (lib : Lib) (sc : SplunkClient) (net : Network)
    (dec : Decoder α) (method url : GoString) (params : Values) (v : Option α) :
    Call (Option α) :=
  let url := if method = str "GET" then url ++ str "?" ++ lib.Encode params else url
  let params := if method = str "GET" then Values.empty else params
  match sc.newRequest lib method url params with
  | .error err => ⟨v, .err err, []⟩
  | .ok req =>
    let req :=
      if method = str "POST" then
        let contentType := str "application/x-www-form-urlencoded"
        { req with Header := req.Header.Set (str "Content-Type") contentType }
      else req
    exchange lib net dec req v

/-- The method `Login`; the value is the client after the call. -/
def SplunkClient.Login (lib : Lib) (sc : SplunkClient) (net : Network) : Call SplunkClient :=
  let data := Values.ofList
    [(str "username", sc.username), (str "password", sc.password), (str "output_mode", str "json")]
  let loginURL := sc.baseURL ++ str "/services/auth/login"
  let r := sc.send lib net lib.jsonSession (str "POST") loginURL data (some ⟨[]⟩)
  match r.err, r.val with
  | .nil, some s => ⟨{ sc with session := s }, .nil, r.reqs⟩
  | .nil, none => ⟨sc, .nil, r.reqs⟩
  | e, _ => ⟨sc, e, r.reqs⟩

/-- The method `SetSessionKey`. -/
def SplunkClient.SetSessionKey (sc : SplunkClient) (key : GoString) : SplunkClient :=
  { sc with session := { sc.session with Key := key } }

/-- The method `CancelSearch`. -/
def SplunkClient.CancelSearch (lib : Lib) (sc : SplunkClient) (net : Network)
    (sid : GoString) : Call Unit :=
  let data := Values.ofList [(str "action", str "cancel"), (str "output_mode", str "json")]
  let controlURL := sc.baseURL ++ str "/services/search/jobs/" ++ sid ++ str "/control"
  let r := sc.send lib net (fun _ (u : Unit) => (u, none)) (str "POST") controlURL data none
  ⟨(), r.err, r.reqs⟩

/-- The query normalisation at the head of `SubmitSearch`. -/
def searchQuery (query : GoString) : GoString :=
  if !strings_HasPrefix query (str "search") then
    strings_Join [str "search", query] (str " ")
  else query

/-- The form `data` of `SubmitSearch`: the required values, then one `Add`
per entry of `params`. -/
def searchData (id query : GoString) (params : Param) : Values :=
  params.foldl (fun data kv => data.Add kv.1 (fmt_v kv.2))
    (Values.ofList [(str "id", id), (str "search", query), (str "output_mode", str "json")])

/-- The method `SubmitSearch`; the value is `sid`. -/
def SplunkClient.SubmitSearch (lib : Lib) (sc : SplunkClient) (net : Network) (rnd : Urandom)
    (query suffix : GoString) (params : Param) : Call GoString :=
  let query := searchQuery query
  match genID rnd params suffix with
  | (_, some err) => ⟨[], .err err, []⟩
  | (id, none) =>
    let data := searchData id query params
    let jobsURL := sc.baseURL ++ str "/services/search/jobs"
    let r := sc.send lib net lib.jsonSearchJob (str "POST") jobsURL data (some ⟨[]⟩)
    match r.err, r.val with
    | .nil, some s => ⟨s.Id, .nil, r.reqs⟩
    | e, _ => ⟨[], e, r.reqs⟩

/-- The method `Events`; the value is the `*Events` returned in either case. -/
def SplunkClient.Events (lib : Lib) (sc : SplunkClient) (net : Network) (sid : GoString)
    (offset : Int) : Call Events :=
  let eventURL := sc.baseURL ++ str "/services/search/jobs/" ++ sid ++ str "/events"
  let data := Values.ofList [(str "offset", strconv_Itoa offset), (str "output_mode", str "json")]
  let r := sc.send lib net lib.jsonEvents (str "GET") eventURL data (some ⟨0, [], []⟩)
  ⟨r.val.getD ⟨0, [], []⟩, r.err, r.reqs⟩

/-! ## `splunk.go`: the streaming loop -/

/-- What the goroutine of `StreamEvents` meets in its `i`-th iteration: the
value of `sc.stopped` read by the loop condition, the network answering the
fetch, and whether the `select` receives from `stopCh` before the timer. -/
structure Schedule where
  stopped : Nat → Bool
  net : Nat → Network
  stopCh : Nat → Bool

/-- Value sent on the channel of `StreamEvents`. -/
inductive Item where
  | error (e : GoError)
  | events (e : Events)
deriving DecidableEq, Repr

/-- Steps of the goroutine of `StreamEvents`, in program order. -/
inductive Action where
  /-- The loop condition read `sc.stopped = true`. -/
  | stopped
  /-- The call `sc.Events(sid, offset)` while the counter was `backoff`, and
  what it returned. -/
  | fetch (offset backoff : Int) (e : Events) (err : Ret)
  /-- The `select` on `stopCh` and `time.After(d)`; `stop` tells that the
  receive from `stopCh` was taken. -/
  | wait (d : Duration) (stop : Bool)
  /-- A send `ch <- x`. -/
  | send (x : Item)
  /-- The call `close(ch)`, with the values of `backoff` and `offset` then. -/
  | close (backoff offset : Int)
  /-- The goroutine panicked. -/
  | panic
deriving DecidableEq, Repr

/-- The loop of `StreamEvents` from its `i`-th iteration with the given
values of `backoff` and `offset`, followed by `close(ch)`; `fuel` bounds the
number of iterations observed (the loop itself is unbounded). -/
def streamLoop (lib : Lib) (sc : SplunkClient) (sid : GoString) (s : Schedule) :
    Nat → Nat → Int → Int → List Action
  | 0, _, _, _ => []
  | fuel + 1, i, backoff, offset =>
    if s.stopped i then [.stopped, .close backoff offset]
    else
      let r := sc.Events lib (s.net i) sid offset
      match r.err with
      | .panic => [.fetch offset backoff r.val .panic, .panic]
      | .err err =>
        [.fetch offset backoff r.val (.err err), .send (.error err), .close backoff offset]
      | .nil =>
        if r.val.Results.length = 0 then
          if s.stopCh i then
            [.fetch offset backoff r.val .nil, .wait (exp backoff) true, .close backoff offset]
          else
            .fetch offset backoff r.val .nil :: .wait (exp backoff) false ::
              streamLoop lib sc sid s fuel (i + 1) (backoff + 1) offset
        else
          .fetch offset backoff r.val .nil :: .send (.events r.val) ::
            streamLoop lib sc sid s fuel (i + 1) 0 (offset + r.val.Results.length)

/-- The method `StreamEvents`: the steps of its goroutine, `backoff` and
`offset` starting at zero. -/
def SplunkClient.StreamEvents (lib : Lib) (sc : SplunkClient) (sid : GoString) (s : Schedule)
    (fuel : Nat) : List Action :=
  streamLoop lib sc sid s fuel 0 0 0

/-! ## Observations on a run of the streaming loop -/

/-- One call of `sc.Events` by the loop: the offset passed, the value of
`backoff` at that moment, and what the call returned. -/
structure Fetch where
  offset : Int
  backoff : Int
  e : Events
  err : Ret
deriving DecidableEq, Repr

/-- Number of records of the batch, `len(e.Results)`. -/
def Fetch.size (f : Fetch) : Nat := f.e.Results.length

/-- The calls of `sc.Events` of a run, in order. -/
def fetches : List Action → List Fetch
  | [] => []
  | .fetch o b e r :: rest => ⟨o, b, e, r⟩ :: fetches rest
  | _ :: rest => fetches rest

/-- The items sent on the channel during a run, in order. -/
def sent : List Action → List Item
  | [] => []
  | .send x :: rest => x :: sent rest
  | _ :: rest => sent rest

/-- Number of times the channel is closed during a run. -/
def closes : List Action → Nat
  | [] => 0
  | .close _ _ :: rest => closes rest + 1
  | _ :: rest => closes rest

/-- The delays of the `select` statements of a run, in order. -/
def waits : List Action → List Duration
  | [] => []
  | .wait d _ :: rest => d :: waits rest
  | _ :: rest => waits rest

/-- Number of consecutive empty batches at the end of a list of batch sizes:
the length of the longest all-zero suffix. -/
def trailingEmpty (sizes : List Nat) : Nat :=
  (sizes.reverse.takeWhile (fun n => n = 0)).length

/-! ## Fixtures for concrete runs

A small stand-in for the standard library and for the service, used to
evaluate the client on concrete inputs. -/

/-- An error of the JSON decoder on an empty body. -/
def errEOF : GoError := ⟨str "EOF"⟩

/-- Error body with one message of type `WARN` and text `X`. -/
def bodyWarnX : GoString := str "\x7b\"messages\":[\x7b\"type\":\"WARN\",\"text\":\"X\"\x7d]\x7d"

/-- Error body without messages. -/
def bodyNoMessages : GoString := str "\x7b\"messages\":[]\x7d"

def bodySession : GoString := str "\x7b\"sessionKey\":\"test\"\x7d"

def bodySid : GoString := str "\x7b\"sid\":\"0000000000.stailf\"\x7d"

/-- Body of a fetch with one record, as the test handler of the repository
writes it. -/
def bodyOneLine : GoString := str "\x7b\"init_offset\":0,\"results\":[\x7b\"_raw\":\"1 line\"\x7d]\x7d"

/-- Body of a fetch without records. -/
def bodyNoLine : GoString := str "\x7b\"init_offset\":0,\"results\":[]\x7d"

def oneLine : result :=
  { ConfStr := [], IndexTime := [], Raw := str "1 line", Serial := [], SourceTypeRaw := [],
    Time := [], Host := [], Index := [], LineCount := [], Source := [], SourceType := [],
    SplunkServer := [] }

/-- Table-driven decoder: a listed body decodes to its entry, any other body
is rejected with `EOF` and leaves the target as it was. -/
def fixtureDecoder {α : Type} (table : List (GoString × α)) : Decoder α :=
  fun body v => match table.lookup body with
    | some a => (a, none)
    | none => (v, some errEOF)

def fixtureKeys : List GoString :=
  [str "action", str "id", str "offset", str "output_mode", str "password", str "search",
    str "search_mode", str "username"]

/-- Form encoding of the keys the client uses, for values without characters
that need escaping. -/
def fixtureEncode (data : Values) : GoString :=
  strings_Join
    ((fixtureKeys.filter (fun k => data k ≠ [])).map (fun k => k ++ str "=" ++ data.Get k))
    (str "&")

def fixtureLib : Lib where
  Encode := fixtureEncode
  NewRequestErr := fun _ _ => none
  jsonMessages := fixtureDecoder
    [(bodyWarnX, ⟨[some ⟨str "WARN", str "X"⟩]⟩), (bodyNoMessages, ⟨[]⟩)]
  jsonSession := fixtureDecoder [(bodySession, ⟨str "test"⟩)]
  jsonSearchJob := fixtureDecoder [(bodySid, ⟨str "0000000000.stailf"⟩)]
  jsonEvents := fixtureDecoder
    [(bodyOneLine, ⟨0, [], [some oneLine]⟩), (bodyNoLine, ⟨0, [], []⟩)]

/-- A service that answers every request with status `code` and `body`. -/
def fixtureNet (code : Int) (body : GoString) : Network :=
  fun _ => .ok ⟨code, body⟩

def fixtureClient : SplunkClient := NewClient (str "admin") (str "admin") (str "http://splunk")

/-- The scenario of the streaming test: one record, then none, then one
record, then the flag `stopped` is set. -/
def scenarioStop : Schedule where
  stopped := fun i => decide (3 ≤ i)
  net := fun i => if i = 1 then fixtureNet 200 bodyNoLine else fixtureNet 200 bodyOneLine
  stopCh := fun _ => false

/-- Three empty fetches, one record, an empty fetch, and then an empty fetch
during whose wait the stop signal arrives. -/
def scenarioBackoff : Schedule where
  stopped := fun _ => false
  net := fun i => if i = 3 then fixtureNet 200 bodyOneLine else fixtureNet 200 bodyNoLine
  stopCh := fun i => decide (5 ≤ i)

/-- One record, no record, then the service answers status 500 with the
message `X`. -/
def scenarioError : Schedule where
  stopped := fun _ => false
  net := fun i =>
    if i = 0 then fixtureNet 200 bodyOneLine
    else if i = 1 then fixtureNet 200 bodyNoLine
    else fixtureNet 500 bodyWarnX
  stopCh := fun _ => false

/-! ## Theorems -/

/-! ### Backoff delay -/

theorem exp_of_ge (b : Int) (hb : 4 ≤ b) : exp b = 8000000000 := by
  have h : b ≥ MaxBackoff := hb
  simp only [exp, h, if_true]
  decide

theorem exp_closed_form (b : Int) (hb : 0 ≤ b) :
    exp b = 500 * Millisecond * 2 ^ (min b 4).toNat := by
  rcases lt_or_le b 4 with h | h
  · interval_cases b <;> decide
  · rw [exp_of_ge b h, min_eq_right h]
    decide

/-- C3: for every counter `b >= 0` the delay `exp b` is exactly
500ms times `2 ^ min b 4`; it is non-decreasing in `b`, equals 500ms at `0`,
equals 8000ms from `4` on, and never exceeds 8 seconds. -/
theorem exp_saturates (b : Int) (hb : 0 ≤ b) :
    exp b = 500 * Millisecond * 2 ^ (min b 4).toNat ∧
    (∀ c, b ≤ c → exp b ≤ exp c) ∧
    exp 0 = 500 * Millisecond ∧
    (4 ≤ b → exp b = 8000 * Millisecond) ∧
    exp b ≤ 8 * Second := by
  refine ⟨exp_closed_form b hb, ?_, by decide, ?_, ?_⟩
  · intro c hc
    rcases lt_or_le c 4 with h | h
    · have hb4 : b < 4 := lt_of_le_of_lt hc h
      have hc0 : 0 ≤ c := le_trans hb hc
      interval_cases b <;> interval_cases c <;> decide
    · rw [exp_of_ge c h]
      rcases lt_or_le b 4 with h4 | h4
      · interval_cases b <;> decide
      · rw [exp_of_ge b h4]
  · intro h
    rw [exp_of_ge b h]
    decide
  · rcases lt_or_le b 4 with h | h
    · interval_cases b <;> decide
    · rw [exp_of_ge b h]
      decide

theorem exp_saturates_witness :
    exp 6 = 500 * Millisecond * 2 ^ (min (6 : Int) 4).toNat ∧
    (∀ c, (6 : Int) ≤ c → exp 6 ≤ exp c) ∧
    exp 0 = 500 * Millisecond ∧
    ((4 : Int) ≤ 6 → exp 6 = 8000 * Millisecond) ∧
    exp 6 ≤ 8 * Second :=
  exp_saturates 6 (by decide)

/-! ### Strings -/

theorem HasPrefix_iff (s pfx : GoString) : strings_HasPrefix s pfx = true ↔ pfx <+: s := by
  simp only [strings_HasPrefix, Bool.and_eq_true, decide_eq_true_eq, beq_iff_eq]
  constructor
  · rintro ⟨_, h⟩
    exact List.prefix_iff_eq_take.mpr h.symm
  · intro h
    exact ⟨h.length_le, (List.prefix_iff_eq_take.mp h).symm⟩

theorem searchQuery_eq (q : GoString) :
    searchQuery q = if str "search" <+: q then q else str "search" ++ str " " ++ q := by
  unfold searchQuery
  by_cases h : str "search" <+: q
  · have h2 : strings_HasPrefix q (str "search") = true := (HasPrefix_iff _ _).mpr h
    simp [h, h2]
  · have h2 : strings_HasPrefix q (str "search") = false := by
      rw [← Bool.not_eq_true, HasPrefix_iff]; exact h
    simp [h, h2, strings_Join]

theorem searchQuery_begins (q : GoString) : str "search" <+: searchQuery q := by
  rw [searchQuery_eq]
  split
  · assumption
  · rw [List.append_assoc]
    exact List.prefix_append _ _

/-! ### Forms -/

theorem Values_Add_head (data : Values) (key k v x : GoString) (h : (data key).head? = some x) :
    ((data.Add k v) key).head? = some x := by
  unfold Values.Add
  split
  · cases hd : data key with
    | nil => simp [hd] at h
    | cons a l => simpa [hd] using h
  · exact h

theorem foldl_Add_head (params : Param) (data : Values) (key x : GoString)
    (h : (data key).head? = some x) :
    ((params.foldl (fun data kv => Values.Add data kv.1 (fmt_v kv.2)) data) key).head? = some x := by
  induction params generalizing data with
  | nil => simpa using h
  | cons kv rest ih =>
    simp only [List.foldl_cons]
    exact ih _ (Values_Add_head data key kv.1 (fmt_v kv.2) x h)

theorem required_search (id query : GoString) :
    Values.ofList [(str "id", id), (str "search", query), (str "output_mode", str "json")]
      (str "search") = [query] := by
  have h1 : (str "search" == str "id") = false := by decide
  have h2 : (str "search" == str "search") = true := by decide
  simp only [Values.ofList, List.lookup, h1, h2]

theorem searchData_Get_search (id query : GoString) (params : Param) :
    (searchData id query params).Get (str "search") = query := by
  have h := foldl_Add_head params
    (Values.ofList [(str "id", id), (str "search", query), (str "output_mode", str "json")])
    (str "search") query (by rw [required_search]; rfl)
  unfold searchData Values.Get
  cases hv : (List.foldl (fun data kv => Values.Add data kv.1 (fmt_v kv.2))
    (Values.ofList [(str "id", id), (str "search", query), (str "output_mode", str "json")])
    params) (str "search") with
  | nil => simp [hv] at h
  | cons a l => simpa [hv] using h

/-! ### Transport -/

theorem POST_ne_GET : str "POST" ≠ str "GET" := by decide

theorem newRequest_body (lib : Lib) (sc : SplunkClient) (method url : GoString) (data : Values)
    (req : Request) (h : sc.newRequest lib method url data = .ok req) :
    req.Body = lib.Encode data ∧ req.Method = method ∧ req.URL = url := by
  unfold SplunkClient.newRequest at h
  split at h
  · cases h
  · split at h <;> cases h <;> simp [Request.SetBasicAuth]

theorem newRequest_error_iff (lib : Lib) (sc : SplunkClient) (method url : GoString)
    (data : Values) (err : GoError) :
    sc.newRequest lib method url data = .error err ↔ lib.NewRequestErr method url = some err := by
  unfold SplunkClient.newRequest
  split
  · rename_i e he
    simp [he]
  · rename_i he
    split <;> simp [he]

theorem exchange_reqs {α : Type} (lib : Lib) (net : Network) (dec : Decoder α) (req : Request)
    (v : Option α) : (exchange lib net dec req v).reqs = [req] := by
  unfold exchange
  split
  · rfl
  · split
    · rfl
    · rfl
    · split
      · split <;> rfl
      · rfl

theorem exchange_ok {α : Type} (lib : Lib) (net : Network) (dec : Decoder α) (req : Request)
    (v : Option α) (h : (exchange lib net dec req v).err = .nil) :
    ∃ resp, net req = .ok resp ∧ isStatusOK lib resp = .nil ∧
      (exchange lib net dec req v).val = v.map (fun t => (dec resp.Body t).1) ∧
      ∀ t, v = some t → (dec resp.Body t).2 = none := by
  unfold exchange at h ⊢
  cases hnet : net req with
  | error err => simp [hnet] at h
  | ok resp =>
    simp only [hnet] at h ⊢
    cases hs : isStatusOK lib resp with
    | err e => simp [hs] at h
    | panic => simp [hs] at h
    | nil =>
      simp only [hs] at h ⊢
      cases v with
      | none => exact ⟨resp, rfl, hs, rfl, by simp⟩
      | some t =>
        simp only [readJSON] at h ⊢
        rcases hd : dec resp.Body t with ⟨t2, _ | e⟩
        · exact ⟨resp, rfl, hs, by simp [hd], by intro t3 ht3; cases ht3; simp [hd]⟩
        · simp [hd] at h

theorem send_ok {α : Type} (lib : Lib) (sc : SplunkClient) (net : Network)
    (dec : Decoder α) (method url : GoString) (params : Values) (v : Option α)
    (h : (sc.send lib net dec method url params v).err = .nil) :
    ∃ req resp, net req = .ok resp ∧ isStatusOK lib resp = .nil ∧
      (sc.send lib net dec method url params v).val = v.map (fun t => (dec resp.Body t).1) ∧
      ∀ t, v = some t → (dec resp.Body t).2 = none := by
  unfold SplunkClient.send at h ⊢
  dsimp only at h ⊢
  generalize sc.newRequest lib method
    (if method = str "GET" then url ++ str "?" ++ lib.Encode params else url)
    (if method = str "GET" then Values.empty else params) = built at h ⊢
  cases built with
  | error err => cases h
  | ok req =>
    dsimp only at h ⊢
    obtain ⟨resp, h1, h2, h3, h4⟩ := exchange_ok lib net dec _ v h
    exact ⟨_, resp, h1, h2, h3, h4⟩

theorem send_POST_bodies {α : Type} (lib : Lib) (sc : SplunkClient) (net : Network)
    (dec : Decoder α) (url : GoString) (params : Values) (v : Option α) :
    (sc.send lib net dec (str "POST") url params v).reqs.map Request.Body =
      if lib.NewRequestErr (str "POST") url = none then [lib.Encode params] else [] := by
  unfold SplunkClient.send
  simp only [POST_ne_GET, if_false, if_true]
  cases hreq : sc.newRequest lib (str "POST") url params with
  | error err =>
    have := (newRequest_error_iff lib sc _ _ _ err).mp hreq
    simp [this]
  | ok req =>
    have hb := (newRequest_body lib sc _ _ _ req hreq).1
    have hn : lib.NewRequestErr (str "POST") url = none := by
      cases hne : lib.NewRequestErr (str "POST") url with
      | none => rfl
      | some e =>
        have := (newRequest_error_iff lib sc (str "POST") url params e).mpr hne
        rw [hreq] at this
        cases this
    simp only [hn, if_true, exchange_reqs, List.map_cons, List.map_nil, hb]

/-! ### Query normalisation -/

/-- C6: the query `SubmitSearch` transmits in the `search` field is the
caller's query when that begins with `search`, and `search`, one space and
the query otherwise; it always begins with `search`, normalising twice
changes nothing, `*` becomes `search *` and `search foo` is unchanged.  The
body of the one request `SubmitSearch` hands to the HTTP client is the
encoding of a form whose `search` field is that query. -/
theorem SubmitSearch_query_normalized (q : GoString) :
    searchQuery q = (if str "search" <+: q then q else str "search" ++ str " " ++ q) ∧
    str "search" <+: searchQuery q ∧
    searchQuery (searchQuery q) = searchQuery q ∧
    searchQuery (str "*") = str "search *" ∧
    searchQuery (str "search foo") = str "search foo" ∧
    (∀ (lib : Lib) (sc : SplunkClient) (net : Network) (rnd : Urandom) (suffix : GoString)
        (params : Param),
      (sc.SubmitSearch lib net rnd q suffix params).reqs.map Request.Body =
        (if (genID rnd params suffix).2 = none ∧
            lib.NewRequestErr (str "POST") (sc.baseURL ++ str "/services/search/jobs") = none
          then [lib.Encode (searchData (genID rnd params suffix).1 (searchQuery q) params)]
          else []) ∧
      (searchData (genID rnd params suffix).1 (searchQuery q) params).Get (str "search") =
        searchQuery q) := by
  refine ⟨searchQuery_eq q, searchQuery_begins q, ?_, by decide, by decide, ?_⟩
  · rw [searchQuery_eq (searchQuery q), if_pos (searchQuery_begins q)]
  · intro lib sc net rnd suffix params
    refine ⟨?_, searchData_Get_search _ _ _⟩
    unfold SplunkClient.SubmitSearch
    rcases hg : genID rnd params suffix with ⟨id, _ | err⟩
    · simp only [true_and]
      rw [← send_POST_bodies lib sc net lib.jsonSearchJob _ _ (some ⟨[]⟩)]
      split <;> rfl
    · simp

/-! ### Job identifiers -/

theorem hexDigit_mem (n : Nat) (h : n < 16) : ldigits.getD n 0 ∈ str "0123456789abcdef" := by
  interval_cases n <;> decide

theorem hexByte_mem (c : Byte) : ∀ x ∈ hexByte c, x ∈ str "0123456789abcdef" := by
  intro x hx
  have h1 : c.val / 16 < 16 := by have := c.isLt; omega
  have h2 : c.val % 16 < 16 := Nat.mod_lt _ (by decide)
  simp only [hexByte, List.mem_cons, List.mem_singleton, List.not_mem_nil, or_false] at hx
  rcases hx with rfl | rfl
  · exact hexDigit_mem _ h1
  · exact hexDigit_mem _ h2

theorem fmt_x_mem (b : List Byte) : ∀ x ∈ fmt_x b, x ∈ str "0123456789abcdef" := by
  intro x hx
  simp only [fmt_x, List.mem_flatMap] at hx
  obtain ⟨c, _, hc⟩ := hx
  exact hexByte_mem c x hc

theorem fmt_x_length (b : List Byte) : (fmt_x b).length = 2 * b.length := by
  induction b with
  | nil => rfl
  | cons c rest ih =>
    simp only [fmt_x, List.flatMap_cons, List.length_append, List.length_cons] at ih ⊢
    simp only [hexByte, List.length_cons, List.length_nil]
    omega

theorem readInto_full (b : List Byte) (hb : b.length = 5) :
    readInto (List.replicate 5 (0 : Byte)) b = b := by
  simp [readInto, hb, List.take_of_length_le]

theorem genID_open_ok (params : Param) (suffix : GoString) (data : List Byte)
    (readErr : Option GoError) :
    genID ⟨none, data, readErr⟩ params suffix =
      ((if params.get (str "search_mode") = some (Value.string (str "realtime"))
          then str "rt_" else []) ++
        fmt_x (readInto (List.replicate 5 (0 : Byte)) data) ++ str "." ++ suffix, none) := by
  unfold genID
  simp only
  cases hp : params.get (str "search_mode") with
  | none => simp
  | some v =>
    by_cases hv : v = Value.string (str "realtime")
    · simp [hv]
    · simp [hv]

/-- C7: when the random source opens and delivers 5 bytes `b`, `genID`
returns, without error, the mode tag followed by the 10 lower-case
hexadecimal digits of `b`, a dot and the suffix; the mode tag is `rt_` exactly
when `params` has the string `realtime` under `search_mode` and is empty
otherwise.  With the tag the identifier begins with `rt_` and ends with the
suffix; without it the identifier does not begin with `rt_` and ends with the
dot and the suffix. -/
theorem genID_shape (params : Param) (suffix : GoString) (b : List Byte)
    (readErr : Option GoError) (hb : b.length = 5) :
    (genID ⟨none, b, readErr⟩ params suffix).2 = none ∧
    (genID ⟨none, b, readErr⟩ params suffix).1 =
      (if params.get (str "search_mode") = some (Value.string (str "realtime"))
        then str "rt_" else []) ++ fmt_x b ++ str "." ++ suffix ∧
    (fmt_x b).length = 10 ∧
    (∀ x ∈ fmt_x b, x ∈ str "0123456789abcdef") ∧
    (params.get (str "search_mode") = some (Value.string (str "realtime")) →
      str "rt_" <+: (genID ⟨none, b, readErr⟩ params suffix).1 ∧
      suffix <:+ (genID ⟨none, b, readErr⟩ params suffix).1) ∧
    (params.get (str "search_mode") ≠ some (Value.string (str "realtime")) →
      (genID ⟨none, b, readErr⟩ params suffix).1 = fmt_x b ++ str "." ++ suffix ∧
      ¬ str "rt_" <+: (genID ⟨none, b, readErr⟩ params suffix).1 ∧
      (str "." ++ suffix) <:+ (genID ⟨none, b, readErr⟩ params suffix).1) := by
  rw [genID_open_ok, readInto_full b hb]
  refine ⟨rfl, rfl, ?_, fmt_x_mem b, ?_, ?_⟩
  · rw [fmt_x_length, hb]
  · intro h
    simp only [h, if_true]
    refine ⟨?_, List.suffix_append _ _⟩
    rw [List.append_assoc, List.append_assoc]
    exact List.prefix_append _ _
  · intro h
    simp only [h, if_false, List.nil_append]
    refine ⟨trivial, ?_, ?_⟩
    · match b, hb with
      | c :: rest, _ =>
        intro hp
        have hmem := hexByte_mem c (ldigits.getD (c.val / 16) 0) (by simp [hexByte])
        have hhead : ldigits.getD (c.val / 16) 0 = (114 : Byte) := by
          obtain ⟨t, ht⟩ := hp
          have h0 : (str "rt_" ++ t).head? = some (114 : Byte) := rfl
          rw [ht] at h0
          simpa [fmt_x, hexByte] using h0
        rw [hhead] at hmem
        exact absurd hmem (by decide)
    · rw [List.append_assoc]
      exact List.suffix_append _ _

theorem genID_shape_witness :
    (genID ⟨none, [1, 2, 255, 16, 0], none⟩ [(str "search_mode", .string (str "realtime"))]
      (str "stailf")).1 = str "rt_0102ff1000.stailf" ∧
    (genID ⟨none, [1, 2, 255, 16, 0], none⟩ [] (str "stailf")).1 = str "0102ff1000.stailf" := by
  have h1 := genID_shape [(str "search_mode", .string (str "realtime"))] (str "stailf")
    [1, 2, 255, 16, 0] none (by decide)
  have h2 := genID_shape [] (str "stailf") [1, 2, 255, 16, 0] none (by decide)
  exact ⟨h1.2.1.trans (by decide), h2.2.1.trans (by decide)⟩

/-- C8: at a failed read of the random source (no byte delivered, error `EOF`)
`genID` reports no error and builds the identifier from the zeroed buffer, and
`SubmitSearch` sends the job with that identifier and returns no error. -/
theorem genID_read_error_ignored :
    genID ⟨none, [], some errEOF⟩ [] (str "stailf") = (str "0000000000.stailf", none) ∧
    (fixtureClient.SubmitSearch fixtureLib (fixtureNet 200 bodySid) ⟨none, [], some errEOF⟩
      (str "*") (str "stailf") []).err = Ret.nil ∧
    (fixtureClient.SubmitSearch fixtureLib (fixtureNet 200 bodySid) ⟨none, [], some errEOF⟩
      (str "*") (str "stailf") []).val = str "0000000000.stailf" ∧
    (fixtureClient.SubmitSearch fixtureLib (fixtureNet 200 bodySid) ⟨none, [], some errEOF⟩
      (str "*") (str "stailf") []).reqs.map Request.Body =
        [str "id=0000000000.stailf&output_mode=json&search=search *"] := by
  refine ⟨by decide, by decide, by decide, by decide⟩

/-! ### Error surfacing -/

theorem isStatusOK_ok (lib : Lib) (r : Response) (h : r.StatusCode ≤ 299) :
    isStatusOK lib r = .nil := by
  unfold isStatusOK
  rw [if_neg (not_lt.mpr h)]

theorem isStatusOK_bad (lib : Lib) (r : Response) (h : 299 < r.StatusCode) :
    isStatusOK lib r =
      match lib.jsonMessages r.Body ⟨[]⟩ with
      | (_, some err) => .err err
      | (m, none) =>
        match m.Messages with
        | [] => .err (errors_New (str "No error messages returned from splunk"))
        | some first :: _ => .err (errors_New first.Text)
        | none :: _ => .panic := by
  unfold isStatusOK readJSON
  rw [if_pos h]
  rcases hd : lib.jsonMessages r.Body ⟨[]⟩ with ⟨m, _ | err⟩
  · rcases hm : m.Messages with _ | ⟨_ | first, rest⟩ <;> simp [hm]
  · simp

theorem isStatusOK_bad_ne_nil (lib : Lib) (r : Response) (h : 299 < r.StatusCode) :
    isStatusOK lib r ≠ .nil := by
  rw [isStatusOK_bad lib r h]
  rcases lib.jsonMessages r.Body ⟨[]⟩ with ⟨m, _ | err⟩
  · rcases hm : m.Messages with _ | ⟨_ | first, rest⟩ <;> simp [hm]
  · simp

theorem send_bad_status {α : Type} (lib : Lib) (sc : SplunkClient) (net : Network)
    (dec : Decoder α) (method url : GoString) (params : Values) (v : Option α) (r : Response)
    (hnet : ∀ req, net req = .ok r) (h : 299 < r.StatusCode)
    (hsent : (sc.send lib net dec method url params v).reqs ≠ []) :
    (sc.send lib net dec method url params v).err = isStatusOK lib r ∧
    (sc.send lib net dec method url params v).val = v := by
  have hne := isStatusOK_bad_ne_nil lib r h
  unfold SplunkClient.send at hsent ⊢
  dsimp only at hsent ⊢
  generalize sc.newRequest lib method
    (if method = str "GET" then url ++ str "?" ++ lib.Encode params else url)
    (if method = str "GET" then Values.empty else params) = built at hsent ⊢
  cases built with
  | error err => exact absurd rfl hsent
  | ok req =>
    unfold exchange
    simp only [hnet]
    cases hs : isStatusOK lib r with
    | nil => exact absurd hs hne
    | err e => exact ⟨rfl, rfl⟩
    | panic => exact ⟨rfl, rfl⟩

/-- C9 (counterexample): a response with status 500 and an empty body carries
no message, and the error returned is the decoder's `EOF`, not the generic
text. -/
theorem isStatusOK_undecodable_body :
    (299 : Int) < (Response.mk 500 []).StatusCode ∧
    (fixtureLib.jsonMessages (Response.mk 500 []).Body ⟨[]⟩).1.Messages = [] ∧
    isStatusOK fixtureLib ⟨500, []⟩ = .err errEOF ∧
    isStatusOK fixtureLib ⟨500, []⟩ ≠
      .err (errors_New (str "No error messages returned from splunk")) := by
  decide

/-- C9 (amended): `isStatusOK` returns no error exactly when the status code
is at most 299.  Above 299: when the body decodes to a message list whose
first entry is a message, the error text is exactly that message's text; when
it decodes to an empty list, the error is the fixed non-empty text
`No error messages returned from splunk`; when the body does not decode, the
decoder's error is returned.  `send` returns what `isStatusOK` reports and
leaves the caller's output target as it was. -/
theorem isStatusOK_surfaces (lib : Lib) (r : Response) :
    (isStatusOK lib r = .nil ↔ r.StatusCode ≤ 299) ∧
    (299 < r.StatusCode →
      (∀ m first rest, lib.jsonMessages r.Body ⟨[]⟩ = (m, none) →
        m.Messages = some first :: rest →
        isStatusOK lib r = .err (errors_New first.Text) ∧
        (errors_New first.Text).text = first.Text) ∧
      (∀ m, lib.jsonMessages r.Body ⟨[]⟩ = (m, none) → m.Messages = [] →
        isStatusOK lib r = .err (errors_New (str "No error messages returned from splunk"))) ∧
      (∀ m err, lib.jsonMessages r.Body ⟨[]⟩ = (m, some err) →
        isStatusOK lib r = .err err)) ∧
    (errors_New (str "No error messages returned from splunk")).text ≠ [] ∧
    (∀ (α : Type) (sc : SplunkClient) (net : Network) (dec : Decoder α) (method url : GoString)
        (params : Values) (v : Option α),
      (∀ req, net req = .ok r) → 299 < r.StatusCode →
      (sc.send lib net dec method url params v).reqs ≠ [] →
      (sc.send lib net dec method url params v).err = isStatusOK lib r ∧
      (sc.send lib net dec method url params v).val = v) := by
  refine ⟨⟨?_, ?_⟩, ?_, by decide, ?_⟩
  · intro h
    by_contra hc
    exact isStatusOK_bad_ne_nil lib r (not_le.mp hc) h
  · exact isStatusOK_ok lib r
  · intro h
    rw [isStatusOK_bad lib r h]
    refine ⟨?_, ?_, ?_⟩
    · intro m first rest hd hm
      simp [hd, hm, errors_New]
    · intro m hd hm
      simp [hd, hm]
    · intro m err hd
      simp [hd]
  · intro α sc net dec method url params v hnet h hsent
    exact send_bad_status lib sc net dec method url params v r hnet h hsent

theorem isStatusOK_surfaces_witness :
    isStatusOK fixtureLib ⟨500, bodyWarnX⟩ = .err (errors_New (str "X")) ∧
    (fixtureClient.send fixtureLib (fixtureNet 500 bodyWarnX) fixtureLib.jsonEvents (str "GET")
      (str "http://splunk/services/search/jobs/1.stailf/events") Values.empty
      (some ⟨0, [], []⟩)).err = .err (errors_New (str "X")) ∧
    (fixtureClient.send fixtureLib (fixtureNet 500 bodyWarnX) fixtureLib.jsonEvents (str "GET")
      (str "http://splunk/services/search/jobs/1.stailf/events") Values.empty
      (some ⟨0, [], []⟩)).val = some ⟨0, [], []⟩ := by
  have h := isStatusOK_surfaces fixtureLib ⟨500, bodyWarnX⟩
  have h1 := (h.2.1 (by decide)).1 ⟨[some ⟨str "WARN", str "X"⟩]⟩ ⟨str "WARN", str "X"⟩ []
    (by decide) rfl
  have h2 := h.2.2.2 Events fixtureClient (fixtureNet 500 bodyWarnX) fixtureLib.jsonEvents
    (str "GET") (str "http://splunk/services/search/jobs/1.stailf/events") Values.empty
    (some ⟨0, [], []⟩) (fun _ => rfl) (by decide)
    (fun hnil => absurd (congrArg List.length hnil) (by decide))
  exact ⟨h1.1, h2.1.trans h1.1, h2.2⟩

/-! ### Authentication -/

theorem Splunk_ne_Basic (k x : GoString) : str "Splunk " ++ k ≠ str "Basic " ++ x := by
  intro h
  have h0 : (str "Splunk " ++ k).head? = some (83 : Byte) := rfl
  have h1 : (str "Basic " ++ x).head? = some (66 : Byte) := rfl
  rw [h, h1] at h0
  exact absurd h0 (by decide)

theorem newRequest_header (lib : Lib) (sc : SplunkClient) (method url : GoString)
    (data : Values) (req : Request) (h : sc.newRequest lib method url data = .ok req) :
    req.Header.Get (str "Authorization") =
      if sc.session.Key ≠ [] then str "Splunk " ++ sc.session.Key
      else str "Basic " ++ base64_EncodeToString (sc.username ++ str ":" ++ sc.password) := by
  unfold SplunkClient.newRequest at h
  split at h
  · cases h
  · split at h
    · rename_i hk
      cases h
      rw [if_pos hk]
      simp only [Header.Get, Header.Set, if_true, List.headD_cons]
      rfl
    · rename_i hk
      cases h
      rw [if_neg hk]
      simp only [Request.SetBasicAuth, Header.Get, Header.Set, if_true, List.headD_cons]

theorem Login_session (lib : Lib) (sc : SplunkClient) (net : Network)
    (h : (sc.Login lib net).err = .nil) :
    ∃ req resp, net req = .ok resp ∧ (lib.jsonSession resp.Body ⟨[]⟩).2 = none ∧
      (sc.Login lib net).val.session = (lib.jsonSession resp.Body ⟨[]⟩).1 := by
  unfold SplunkClient.Login at h ⊢
  dsimp only at h ⊢
  generalize hr : sc.send lib net lib.jsonSession (str "POST")
    (sc.baseURL ++ str "/services/auth/login")
    (Values.ofList [(str "username", sc.username), (str "password", sc.password),
      (str "output_mode", str "json")]) (some ⟨[]⟩) = r at h ⊢
  have hk : r.err = .nil := by
    rcases r with ⟨val, err, reqs⟩
    cases err <;> cases val <;> simp_all
  obtain ⟨req, resp, h1, _, h3, h4⟩ := send_ok lib sc net lib.jsonSession _ _ _ _ (hr ▸ hk)
  rw [hr] at h3
  refine ⟨req, resp, h1, h4 _ rfl, ?_⟩
  simp only [hk, h3, Option.map_some']

/-- C10: a request built by `newRequest` carries `Authorization: Splunk `
followed by the session key when the key is non-empty, whatever the username
and password, and the basic credentials of username and password otherwise.
So after `SetSessionKey k` with non-empty `k`, and after a `Login` that
succeeded and stored the non-empty key `k` decoded from the response, every
request carries `Splunk ` followed by `k` and no basic credentials. -/
theorem newRequest_authorization (lib : Lib) (sc : SplunkClient) (method url : GoString)
    (data : Values) :
    (∀ req, sc.newRequest lib method url data = .ok req →
      req.Header.Get (str "Authorization") =
        (if sc.session.Key ≠ [] then str "Splunk " ++ sc.session.Key
         else str "Basic " ++ base64_EncodeToString (sc.username ++ str ":" ++ sc.password)) ∧
      (sc.session.Key ≠ [] → ∀ x, req.Header.Get (str "Authorization") ≠ str "Basic " ++ x)) ∧
    (∀ k req, k ≠ [] → (sc.SetSessionKey k).newRequest lib method url data = .ok req →
      req.Header.Get (str "Authorization") = str "Splunk " ++ k ∧
      ∀ x, req.Header.Get (str "Authorization") ≠ str "Basic " ++ x) ∧
    (∀ net req, (sc.Login lib net).err = .nil → (sc.Login lib net).val.session.Key ≠ [] →
      (sc.Login lib net).val.newRequest lib method url data = .ok req →
      (∃ sent resp, net sent = .ok resp ∧
        (sc.Login lib net).val.session = (lib.jsonSession resp.Body ⟨[]⟩).1) ∧
      req.Header.Get (str "Authorization") =
        str "Splunk " ++ (sc.Login lib net).val.session.Key ∧
      ∀ x, req.Header.Get (str "Authorization") ≠ str "Basic " ++ x) := by
  refine ⟨?_, ?_, ?_⟩
  · intro req h
    have hh := newRequest_header lib sc method url data req h
    refine ⟨hh, ?_⟩
    intro hk x
    rw [hh, if_pos hk]
    exact Splunk_ne_Basic _ _
  · intro k req hk h
    have hh := newRequest_header lib _ method url data req h
    have hk2 : (sc.SetSessionKey k).session.Key ≠ [] := hk
    rw [if_pos hk2] at hh
    refine ⟨hh, ?_⟩
    intro x
    rw [hh]
    exact Splunk_ne_Basic _ _
  · intro net req hok hk h
    have hh := newRequest_header lib _ method url data req h
    rw [if_pos hk] at hh
    obtain ⟨sent, resp, hnet, _, hsess⟩ := Login_session lib sc net hok
    refine ⟨⟨sent, resp, hnet, hsess⟩, hh, ?_⟩
    intro x
    rw [hh]
    exact Splunk_ne_Basic _ _

theorem newRequest_authorization_witness :
    (∀ req, fixtureClient.newRequest fixtureLib (str "GET") (str "http://splunk") Values.empty
        = .ok req →
      req.Header.Get (str "Authorization") = str "Basic YWRtaW46YWRtaW4=") ∧
    (∀ req, (fixtureClient.SetSessionKey (str "abc")).newRequest fixtureLib (str "GET")
        (str "http://splunk") Values.empty = .ok req →
      req.Header.Get (str "Authorization") = str "Splunk abc") ∧
    (fixtureClient.Login fixtureLib (fixtureNet 200 bodySession)).val.session.Key = str "test" ∧
    (∀ req, (fixtureClient.Login fixtureLib (fixtureNet 200 bodySession)).val.newRequest
        fixtureLib (str "GET") (str "http://splunk") Values.empty = .ok req →
      req.Header.Get (str "Authorization") = str "Splunk test") := by
  have h := newRequest_authorization fixtureLib fixtureClient (str "GET") (str "http://splunk")
    Values.empty
  refine ⟨?_, ?_, by decide, ?_⟩
  · intro req hreq
    exact ((h.1 req hreq).1).trans (by decide)
  · intro req hreq
    exact (h.2.1 (str "abc") req (by decide) hreq).1
  · intro req hreq
    exact ((h.2.2 (fixtureNet 200 bodySession) req (by decide) (by decide) hreq).2.1).trans
      (by decide)

/-! ### The streaming loop -/

theorem streamLoop_cases (lib : Lib) (sc : SplunkClient) (sid : GoString) (s : Schedule)
    (fuel i : Nat) (b o : Int) :
    (s.stopped i = true ∧
      streamLoop lib sc sid s (fuel + 1) i b o = [.stopped, .close b o]) ∨
    (s.stopped i = false ∧ ∃ e, e = (sc.Events lib (s.net i) sid o).val ∧
      (((sc.Events lib (s.net i) sid o).err = .panic ∧
          streamLoop lib sc sid s (fuel + 1) i b o = [.fetch o b e .panic, .panic]) ∨
        (∃ err, (sc.Events lib (s.net i) sid o).err = .err err ∧
          streamLoop lib sc sid s (fuel + 1) i b o =
            [.fetch o b e (.err err), .send (.error err), .close b o]) ∨
        ((sc.Events lib (s.net i) sid o).err = .nil ∧ e.Results.length = 0 ∧
          s.stopCh i = true ∧
          streamLoop lib sc sid s (fuel + 1) i b o =
            [.fetch o b e .nil, .wait (exp b) true, .close b o]) ∨
        ((sc.Events lib (s.net i) sid o).err = .nil ∧ e.Results.length = 0 ∧
          s.stopCh i = false ∧
          streamLoop lib sc sid s (fuel + 1) i b o =
            .fetch o b e .nil :: .wait (exp b) false ::
              streamLoop lib sc sid s fuel (i + 1) (b + 1) o) ∨
        ((sc.Events lib (s.net i) sid o).err = .nil ∧ e.Results.length ≠ 0 ∧
          streamLoop lib sc sid s (fuel + 1) i b o =
            .fetch o b e .nil :: .send (.events e) ::
              streamLoop lib sc sid s fuel (i + 1) 0 (o + e.Results.length)))) := by
  rw [streamLoop]
  cases hst : s.stopped i with
  | true => left; simp
  | false =>
    right
    refine ⟨rfl, _, rfl, ?_⟩
    simp only [Bool.false_eq_true, if_false]
    generalize sc.Events lib (s.net i) sid o = r
    rcases r with ⟨e, err, reqs⟩
    cases err with
    | panic => left; simp
    | err x => right; left; exact ⟨x, rfl, rfl⟩
    | nil =>
      right; right
      by_cases hlen : e.Results.length = 0
      · cases hch : s.stopCh i with
        | true => left; simp [hlen]
        | false => right; left; simp [hlen]
      · right; right; simp [hlen]
theorem fetches_cases (lib : Lib) (sc : SplunkClient) (sid : GoString) (s : Schedule)
    (fuel i : Nat) (b o : Int) :
    fetches (streamLoop lib sc sid s (fuel + 1) i b o) = [] ∨
    (∃ e r, fetches (streamLoop lib sc sid s (fuel + 1) i b o) = [⟨o, b, e, r⟩]) ∨
    (∃ e : Events, e.Results.length = 0 ∧
      fetches (streamLoop lib sc sid s (fuel + 1) i b o) =
        ⟨o, b, e, .nil⟩ :: fetches (streamLoop lib sc sid s fuel (i + 1) (b + 1) o)) ∨
    (∃ e : Events, e.Results.length ≠ 0 ∧
      fetches (streamLoop lib sc sid s (fuel + 1) i b o) =
        ⟨o, b, e, .nil⟩ ::
          fetches (streamLoop lib sc sid s fuel (i + 1) 0 (o + e.Results.length))) := by
  rcases streamLoop_cases lib sc sid s fuel i b o with
    ⟨_, h⟩ | ⟨_, e, _, ⟨_, h⟩ | ⟨err, _, h⟩ | ⟨_, hlen, _, h⟩ | ⟨_, hlen, _, h⟩ | ⟨_, hlen, h⟩⟩
  · left; rw [h]; rfl
  · right; left; exact ⟨e, .panic, by rw [h]; rfl⟩
  · right; left; exact ⟨e, .err err, by rw [h]; rfl⟩
  · right; left; exact ⟨e, .nil, by rw [h]; rfl⟩
  · right; right; left; exact ⟨e, hlen, by rw [h]; rfl⟩
  · right; right; right; exact ⟨e, hlen, by rw [h]; rfl⟩

theorem streamLoop_offset (lib : Lib) (sc : SplunkClient) (sid : GoString) (s : Schedule) :
    ∀ (fuel i : Nat) (b o : Int) (k : Nat) (f : Fetch),
      (fetches (streamLoop lib sc sid s fuel i b o))[k]? = some f →
      f.offset = o + (((fetches (streamLoop lib sc sid s fuel i b o)).take k).map
        (fun g => (g.size : Int))).sum := by
  intro fuel
  induction fuel with
  | zero =>
    intro i b o k f hk
    simp [streamLoop, fetches] at hk
  | succ fuel ih =>
    intro i b o k f hk
    rcases fetches_cases lib sc sid s fuel i b o with
      h | ⟨e, r, h⟩ | ⟨e, hlen, h⟩ | ⟨e, hlen, h⟩
    · rw [h] at hk
      simp at hk
    · rw [h] at hk ⊢
      cases k with
      | zero =>
        simp at hk
        subst hk
        simp
      | succ k => simp at hk
    · rw [h] at hk ⊢
      cases k with
      | zero =>
        simp at hk
        subst hk
        simp
      | succ k =>
        simp only [List.getElem?_cons_succ] at hk
        have := ih _ _ _ k f hk
        have hs : Fetch.size ⟨o, b, e, .nil⟩ = 0 := hlen
        simp only [List.take_succ_cons, List.map_cons, List.sum_cons]
        rw [this, hs]
        simp only [Nat.cast_zero, zero_add]
    · rw [h] at hk ⊢
      cases k with
      | zero =>
        simp at hk
        subst hk
        simp
      | succ k =>
        simp only [List.getElem?_cons_succ] at hk
        have := ih _ _ _ k f hk
        have hs : Fetch.size ⟨o, b, e, .nil⟩ = e.Results.length := rfl
        simp only [List.take_succ_cons, List.map_cons, List.sum_cons]
        rw [this, hs]
        ring

theorem sum_take_le (l : List Fetch) :
    ∀ j k : Nat, j ≤ k →
      ((l.take j).map (fun g => (g.size : Int))).sum ≤
        ((l.take k).map (fun g => (g.size : Int))).sum := by
  induction l with
  | nil => intro j k _; simp
  | cons a l ih =>
    intro j k hjk
    cases j with
    | zero =>
      simp only [List.take_zero, List.map_nil, List.sum_nil]
      apply List.sum_nonneg
      intro x hx
      simp only [List.mem_map] at hx
      obtain ⟨g, _, rfl⟩ := hx
      exact Int.ofNat_nonneg _
    | succ j =>
      cases k with
      | zero => omega
      | succ k =>
        simp only [List.take_succ_cons, List.map_cons, List.sum_cons]
        have := ih j k (by omega)
        omega

theorem sum_take_succ (l : List Fetch) (k : Nat) (f : Fetch) (h : l[k]? = some f) :
    ((l.take (k + 1)).map (fun g => (g.size : Int))).sum =
      ((l.take k).map (fun g => (g.size : Int))).sum + f.size := by
  rw [List.take_succ, h]
  simp

/-- C1: in every run of `StreamEvents`, the offset passed to `Events` by
fetch number `k` (counted from 0) is the sum of the sizes of the batches
returned by the fetches before it; so the first fetch is at offset 0, the
next fetch is at the offset of this one plus the size of its batch, an empty
fetch leaves the offset unchanged, and no earlier fetch had a larger offset. -/
theorem StreamEvents_offset_is_sum (lib : Lib) (sc : SplunkClient) (sid : GoString)
    (s : Schedule) (fuel k : Nat) (f : Fetch)
    (hk : (fetches (sc.StreamEvents lib sid s fuel))[k]? = some f) :
    f.offset = (((fetches (sc.StreamEvents lib sid s fuel)).take k).map
      (fun g => (g.size : Int))).sum ∧
    (k = 0 → f.offset = 0) ∧
    (∀ g, (fetches (sc.StreamEvents lib sid s fuel))[k + 1]? = some g →
      g.offset = f.offset + f.size) ∧
    (∀ g, (fetches (sc.StreamEvents lib sid s fuel))[k + 1]? = some g → f.size = 0 →
      g.offset = f.offset) ∧
    (∀ j g, j ≤ k → (fetches (sc.StreamEvents lib sid s fuel))[j]? = some g →
      g.offset ≤ f.offset) := by
  have key : ∀ (j : Nat) (g : Fetch), (fetches (sc.StreamEvents lib sid s fuel))[j]? = some g →
      g.offset = (((fetches (sc.StreamEvents lib sid s fuel)).take j).map
        (fun g => (g.size : Int))).sum := by
    intro j g hj
    have := streamLoop_offset lib sc sid s fuel 0 0 0 j g hj
    simpa [SplunkClient.StreamEvents] using this
  have hnext : ∀ g, (fetches (sc.StreamEvents lib sid s fuel))[k + 1]? = some g →
      g.offset = f.offset + f.size := by
    intro g hg
    rw [key _ g hg, key k f hk, sum_take_succ _ k f hk]
  refine ⟨key k f hk, ?_, hnext, ?_, ?_⟩
  · intro h0
    rw [key k f hk, h0]
    simp
  · intro g hg hsize
    rw [hnext g hg, hsize]
    simp
  · intro j g hjk hj
    rw [key j g hj, key k f hk]
    exact sum_take_le _ j k hjk

theorem StreamEvents_offset_is_sum_witness :
    (fetches (fixtureClient.StreamEvents fixtureLib (str "1.stailf") scenarioStop 10))[0]? =
      some ⟨0, 0, ⟨0, [], [some oneLine]⟩, .nil⟩ ∧
    ∀ g, (fetches (fixtureClient.StreamEvents fixtureLib (str "1.stailf") scenarioStop 10))[1]? =
      some g → g.offset = 1 := by
  have h := StreamEvents_offset_is_sum fixtureLib fixtureClient (str "1.stailf") scenarioStop 10 0
    ⟨0, 0, ⟨0, [], [some oneLine]⟩, .nil⟩ (by decide)
  exact ⟨by decide, fun g hg => (h.2.2.1 g hg).trans (by decide)⟩

theorem trailingEmpty_append (l : List Nat) (n : Nat) :
    trailingEmpty (l ++ [n]) = if n = 0 then trailingEmpty l + 1 else 0 := by
  unfold trailingEmpty
  rw [List.reverse_append, List.reverse_singleton, List.singleton_append, List.takeWhile_cons]
  by_cases hn : n = 0 <;> simp [hn]

theorem foldl_trailingEmpty (l : List Nat) :
    l.foldl (fun (c : Int) n => if n = 0 then c + 1 else 0) 0 = (trailingEmpty l : Int) := by
  induction l using List.reverseRecOn with
  | nil => rfl
  | append_singleton l a ih =>
    rw [List.foldl_append, trailingEmpty_append, ih]
    by_cases ha : a = 0 <;> simp [ha]

theorem streamLoop_backoff (lib : Lib) (sc : SplunkClient) (sid : GoString) (s : Schedule) :
    ∀ (fuel i : Nat) (b o : Int) (k : Nat) (f : Fetch),
      (fetches (streamLoop lib sc sid s fuel i b o))[k]? = some f →
      f.backoff = (((fetches (streamLoop lib sc sid s fuel i b o)).take k).map Fetch.size).foldl
        (fun (c : Int) n => if n = 0 then c + 1 else 0) b := by
  intro fuel
  induction fuel with
  | zero =>
    intro i b o k f hk
    simp [streamLoop, fetches] at hk
  | succ fuel ih =>
    intro i b o k f hk
    rcases fetches_cases lib sc sid s fuel i b o with
      h | ⟨e, r, h⟩ | ⟨e, hlen, h⟩ | ⟨e, hlen, h⟩
    · rw [h] at hk
      simp at hk
    · rw [h] at hk ⊢
      cases k with
      | zero =>
        simp at hk
        subst hk
        simp
      | succ k => simp at hk
    · rw [h] at hk ⊢
      cases k with
      | zero =>
        simp at hk
        subst hk
        simp
      | succ k =>
        simp only [List.getElem?_cons_succ] at hk
        have hs : Fetch.size ⟨o, b, e, .nil⟩ = 0 := hlen
        simp only [List.take_succ_cons, List.map_cons, List.foldl_cons, hs, if_true]
        exact ih _ _ _ k f hk
    · rw [h] at hk ⊢
      cases k with
      | zero =>
        simp at hk
        subst hk
        simp
      | succ k =>
        simp only [List.getElem?_cons_succ] at hk
        have hs : Fetch.size ⟨o, b, e, .nil⟩ ≠ 0 := hlen
        simp only [List.take_succ_cons, List.map_cons, List.foldl_cons, hs, if_false]
        exact ih _ _ _ k f hk

theorem streamLoop_wait (lib : Lib) (sc : SplunkClient) (sid : GoString) (s : Schedule) :
    ∀ (fuel i : Nat) (b o : Int) (k : Nat) (f : Fetch),
      (fetches (streamLoop lib sc sid s fuel i b o))[k]? = some f →
      f.err = .nil → f.size = 0 →
      ∃ pre stop post, streamLoop lib sc sid s fuel i b o =
          pre ++ .fetch f.offset f.backoff f.e .nil :: .wait (exp f.backoff) stop :: post ∧
        (fetches pre).length = k := by
  intro fuel
  induction fuel with
  | zero =>
    intro i b o k f hk
    simp [streamLoop, fetches] at hk
  | succ fuel ih =>
    intro i b o k f hk herr hsize
    rcases streamLoop_cases lib sc sid s fuel i b o with
      ⟨_, h⟩ | ⟨_, e, _, ⟨_, h⟩ | ⟨err, _, h⟩ | ⟨_, hlen, _, h⟩ | ⟨_, hlen, _, h⟩ | ⟨_, hlen, h⟩⟩
    · rw [h] at hk
      simp [fetches] at hk
    · rw [h] at hk
      cases k with
      | zero =>
        simp [fetches] at hk
        subst hk
        cases herr
      | succ k => simp [fetches] at hk
    · rw [h] at hk
      cases k with
      | zero =>
        simp [fetches] at hk
        subst hk
        cases herr
      | succ k => simp [fetches] at hk
    · rw [h] at hk ⊢
      cases k with
      | zero =>
        simp [fetches] at hk
        subst hk
        exact ⟨[], true, [.close b o], rfl, rfl⟩
      | succ k => simp [fetches] at hk
    · rw [h] at hk ⊢
      cases k with
      | zero =>
        simp [fetches] at hk
        subst hk
        exact ⟨[], false, _, rfl, rfl⟩
      | succ k =>
        simp only [fetches, List.getElem?_cons_succ] at hk
        obtain ⟨pre, stop, post, hrun, hpre⟩ := ih _ _ _ k f hk herr hsize
        refine ⟨.fetch o b e .nil :: .wait (exp b) false :: pre, stop, post, ?_, ?_⟩
        · rw [hrun]; rfl
        · simp [fetches, hpre]
    · rw [h] at hk ⊢
      cases k with
      | zero =>
        simp [fetches] at hk
        subst hk
        exact absurd hsize hlen
      | succ k =>
        simp only [fetches, List.getElem?_cons_succ] at hk
        obtain ⟨pre, stop, post, hrun, hpre⟩ := ih _ _ _ k f hk herr hsize
        refine ⟨.fetch o b e .nil :: .send (.events e) :: pre, stop, post, ?_, ?_⟩
        · rw [hrun]; rfl
        · simp [fetches, hpre]

/-- C2: in every run of `StreamEvents`, the counter `backoff` at fetch number
`k` equals the number of consecutive empty fetches immediately before it (so
it is 0 at the start and after a non-empty fetch, and one more after an empty
fetch), and an empty successful fetch is directly followed by the wait of
`exp backoff`: the `j`-th consecutive empty fetch waits `exp (j - 1)`. -/
theorem StreamEvents_backoff_counts (lib : Lib) (sc : SplunkClient) (sid : GoString)
    (s : Schedule) (fuel k : Nat) (f : Fetch)
    (hk : (fetches (sc.StreamEvents lib sid s fuel))[k]? = some f) :
    f.backoff =
      (trailingEmpty (((fetches (sc.StreamEvents lib sid s fuel)).take k).map Fetch.size) : Int) ∧
    (f.err = .nil → f.size = 0 →
      ∃ pre stop post, sc.StreamEvents lib sid s fuel =
          pre ++ .fetch f.offset f.backoff f.e .nil ::
            .wait (exp (trailingEmpty
              (((fetches (sc.StreamEvents lib sid s fuel)).take k).map Fetch.size))) stop ::
            post ∧
        (fetches pre).length = k) ∧
    (∀ g, (fetches (sc.StreamEvents lib sid s fuel))[k + 1]? = some g → f.size ≠ 0 →
      g.backoff = 0) ∧
    (∀ g, (fetches (sc.StreamEvents lib sid s fuel))[k + 1]? = some g → f.size = 0 →
      g.backoff = f.backoff + 1) := by
  have key : ∀ (j : Nat) (g : Fetch), (fetches (sc.StreamEvents lib sid s fuel))[j]? = some g →
      g.backoff = (trailingEmpty
        (((fetches (sc.StreamEvents lib sid s fuel)).take j).map Fetch.size) : Int) := by
    intro j g hj
    rw [← foldl_trailingEmpty]
    exact streamLoop_backoff lib sc sid s fuel 0 0 0 j g hj
  have hnext : ∀ g, (fetches (sc.StreamEvents lib sid s fuel))[k + 1]? = some g →
      g.backoff = if f.size = 0 then f.backoff + 1 else 0 := by
    intro g hg
    rw [key _ g hg, key k f hk, List.take_succ, hk]
    simp only [Option.toList_some, List.map_append, List.map_cons, List.map_nil,
      trailingEmpty_append]
    by_cases hz : f.size = 0 <;> simp [hz]
  refine ⟨key k f hk, ?_, ?_, ?_⟩
  · intro herr hsize
    obtain ⟨pre, stop, post, hrun, hpre⟩ :=
      streamLoop_wait lib sc sid s fuel 0 0 0 k f hk herr hsize
    refine ⟨pre, stop, post, ?_, hpre⟩
    rw [← key k f hk]
    exact hrun
  · intro g hg hsize
    rw [hnext g hg, if_neg hsize]
  · intro g hg hsize
    rw [hnext g hg, if_pos hsize]

theorem StreamEvents_backoff_counts_witness :
    waits (fixtureClient.StreamEvents fixtureLib (str "1.stailf") scenarioBackoff 10) =
      [500 * Millisecond, 1000 * Millisecond, 2000 * Millisecond, 500 * Millisecond,
        1000 * Millisecond] ∧
    (fetches (fixtureClient.StreamEvents fixtureLib (str "1.stailf") scenarioBackoff 10)).map
      (fun f => (f.backoff, f.size)) = [(0, 0), (1, 0), (2, 0), (3, 1), (0, 0), (1, 0)] ∧
    ∃ pre stop post, fixtureClient.StreamEvents fixtureLib (str "1.stailf") scenarioBackoff 10 =
      pre ++ .fetch 0 2 ⟨0, [], []⟩ .nil :: .wait (2000 * Millisecond) stop :: post ∧
      (fetches pre).length = 2 := by
  have h := StreamEvents_backoff_counts fixtureLib fixtureClient (str "1.stailf") scenarioBackoff
    10 2 ⟨0, 2, ⟨0, [], []⟩, .nil⟩ (by decide)
  obtain ⟨pre, stop, post, hrun, hpre⟩ := h.2.1 rfl rfl
  refine ⟨by decide, by decide, pre, stop, post, ?_, hpre⟩
  rw [hrun]
  have hd : exp (trailingEmpty (((fetches (fixtureClient.StreamEvents fixtureLib
      (str "1.stailf") scenarioBackoff 10)).take 2).map Fetch.size)) = 2000 * Millisecond := by
    decide
  rw [hd]

theorem fetches_append (l m : List Action) : fetches (l ++ m) = fetches l ++ fetches m := by
  induction l with
  | nil => rfl
  | cons a l ih => cases a <;> simp [fetches, ih]

theorem sent_append (l m : List Action) : sent (l ++ m) = sent l ++ sent m := by
  induction l with
  | nil => rfl
  | cons a l ih => cases a <;> simp [sent, ih]

theorem closes_append (l m : List Action) : closes (l ++ m) = closes l + closes m := by
  induction l with
  | nil => simp [closes]
  | cons a l ih =>
    cases a
    all_goals rw [List.cons_append]
    all_goals simp only [closes]
    all_goals omega

theorem streamLoop_error (lib : Lib) (sc : SplunkClient) (sid : GoString) (s : Schedule) :
    ∀ (fuel i : Nat) (b o : Int) (pre post : List Action) (o2 b2 : Int) (e2 : Events)
      (err : GoError),
      streamLoop lib sc sid s fuel i b o = pre ++ .fetch o2 b2 e2 (.err err) :: post →
      post = [.send (.error err), .close b2 o2] ∧
      sent pre = ((fetches pre).filter (fun f => decide (f.size ≠ 0))).map
        (fun f => Item.events f.e) ∧
      (∀ f ∈ fetches pre, f.err = .nil) ∧
      closes pre = 0 := by
  intro fuel
  induction fuel with
  | zero =>
    intro i b o pre post o2 b2 e2 err h
    simp [streamLoop] at h
  | succ fuel ih =>
    intro i b o pre post o2 b2 e2 err h
    rcases streamLoop_cases lib sc sid s fuel i b o with
      ⟨_, hl⟩ | ⟨_, e, _, ⟨_, hl⟩ | ⟨x, _, hl⟩ | ⟨_, hlen, _, hl⟩ | ⟨_, hlen, _, hl⟩ |
        ⟨_, hlen, hl⟩⟩
    · rw [hl] at h
      rcases pre with _ | ⟨p1, _ | ⟨p2, pre⟩⟩ <;> simp at h
    · rw [hl] at h
      rcases pre with _ | ⟨p1, _ | ⟨p2, pre⟩⟩ <;> simp at h
    · rw [hl] at h
      rcases pre with _ | ⟨p1, _ | ⟨p2, _ | ⟨p3, pre⟩⟩⟩ <;> simp at h
      obtain ⟨⟨rfl, rfl, rfl, rfl⟩, rfl⟩ := h
      simp [sent, fetches, closes]
    · rw [hl] at h
      rcases pre with _ | ⟨p1, _ | ⟨p2, _ | ⟨p3, pre⟩⟩⟩ <;> simp at h
    · rw [hl] at h
      rcases pre with _ | ⟨p1, _ | ⟨p2, pre⟩⟩ <;> simp at h
      obtain ⟨rfl, rfl, hrest⟩ := h
      obtain ⟨h1, h2, h3, h4⟩ := ih _ _ _ _ _ _ _ _ _ hrest
      refine ⟨h1, ?_, ?_, ?_⟩
      · have hs : decide (Fetch.size ⟨o, b, e, .nil⟩ ≠ 0) = false := by
          simp [Fetch.size, hlen]
        simp only [sent, fetches, List.filter_cons, hs]
        exact h2
      · intro f hf
        simp only [fetches, List.mem_cons] at hf
        rcases hf with rfl | hf
        · rfl
        · exact h3 f hf
      · simpa [closes] using h4
    · rw [hl] at h
      rcases pre with _ | ⟨p1, _ | ⟨p2, pre⟩⟩ <;> simp at h
      obtain ⟨rfl, rfl, hrest⟩ := h
      obtain ⟨h1, h2, h3, h4⟩ := ih _ _ _ _ _ _ _ _ _ hrest
      refine ⟨h1, ?_, ?_, ?_⟩
      · have hs : decide (Fetch.size ⟨o, b, e, .nil⟩ ≠ 0) = true := by
          simp [Fetch.size, hlen]
        simp only [sent, fetches, List.filter_cons, hs, if_true, List.map_cons, h2]
      · intro f hf
        simp only [fetches, List.mem_cons] at hf
        rcases hf with rfl | hf
        · rfl
        · exact h3 f hf
      · simpa [closes] using h4

/-- C5: in every run of `StreamEvents` in which a fetch fails, the failing
fetch is directly followed by the send of its error and by `close(ch)`, and
nothing else follows: the failing fetch is the last fetch.  Before it every
fetch succeeded and the channel was not closed, and the items sent are
exactly the non-empty batches of those fetches, in fetch order; so the output
is these batches, then the error as the last item, and the channel is closed
exactly once. -/
theorem StreamEvents_fetch_error (lib : Lib) (sc : SplunkClient) (sid : GoString)
    (s : Schedule) (fuel : Nat) (pre post : List Action) (o b : Int) (e : Events)
    (err : GoError)
    (h : sc.StreamEvents lib sid s fuel = pre ++ .fetch o b e (.err err) :: post) :
    post = [.send (.error err), .close b o] ∧
    (∀ f ∈ fetches pre, f.err = .nil) ∧
    fetches (sc.StreamEvents lib sid s fuel) = fetches pre ++ [⟨o, b, e, .err err⟩] ∧
    sent (sc.StreamEvents lib sid s fuel) =
      ((fetches pre).filter (fun f => decide (f.size ≠ 0))).map (fun f => Item.events f.e) ++
        [.error err] ∧
    closes (sc.StreamEvents lib sid s fuel) = 1 ∧
    (sc.StreamEvents lib sid s fuel).getLast? = some (.close b o) := by
  obtain ⟨h1, h2, h3, h4⟩ := streamLoop_error lib sc sid s fuel 0 0 0 pre post o b e err h
  subst h1
  refine ⟨rfl, h3, ?_, ?_, ?_, ?_⟩
  · rw [h, fetches_append]
    rfl
  · rw [h, sent_append, h2]
    rfl
  · rw [h, closes_append, h4]
    rfl
  · rw [h]
    simp

theorem StreamEvents_fetch_error_witness :
    sent (fixtureClient.StreamEvents fixtureLib (str "1.stailf") scenarioError 10) =
      [.events ⟨0, [], [some oneLine]⟩, .error (errors_New (str "X"))] ∧
    closes (fixtureClient.StreamEvents fixtureLib (str "1.stailf") scenarioError 10) = 1 ∧
    (fetches (fixtureClient.StreamEvents fixtureLib (str "1.stailf") scenarioError 10)).length
      = 3 := by
  have h := StreamEvents_fetch_error fixtureLib fixtureClient (str "1.stailf") scenarioError 10
    [.fetch 0 0 ⟨0, [], [some oneLine]⟩ .nil, .send (.events ⟨0, [], [some oneLine]⟩),
      .fetch 1 0 ⟨0, [], []⟩ .nil, .wait (exp 0) false]
    [.send (.error (errors_New (str "X"))), .close 1 1] 1 1 ⟨0, [], []⟩ (errors_New (str "X"))
    (by decide)
  refine ⟨h.2.2.2.1.trans (by decide), h.2.2.2.2.1, ?_⟩
  rw [h.2.2.1]
  decide

theorem streamLoop_stop (lib : Lib) (sc : SplunkClient) (sid : GoString) (s : Schedule) :
    ∀ (fuel i : Nat) (b o : Int) (pre post : List Action),
      (streamLoop lib sc sid s fuel i b o = pre ++ .stopped :: post →
        ∃ b2 o2, post = [.close b2 o2]) ∧
      (∀ d, streamLoop lib sc sid s fuel i b o = pre ++ .wait d true :: post →
        ∃ o2 b2 e2, pre.getLast? = some (.fetch o2 b2 e2 .nil) ∧ e2.Results.length = 0 ∧
          d = exp b2 ∧ post = [.close b2 o2]) := by
  intro fuel
  induction fuel with
  | zero =>
    intro i b o pre post
    constructor
    · intro h
      simp [streamLoop] at h
    · intro d h
      simp [streamLoop] at h
  | succ fuel ih =>
    intro i b o pre post
    rcases streamLoop_cases lib sc sid s fuel i b o with
      ⟨_, hl⟩ | ⟨_, e, _, ⟨_, hl⟩ | ⟨x, _, hl⟩ | ⟨_, hlen, _, hl⟩ | ⟨_, hlen, _, hl⟩ |
        ⟨_, hlen, hl⟩⟩
    · rw [hl]
      constructor
      · intro h
        rcases pre with _ | ⟨p1, _ | ⟨p2, pre⟩⟩ <;> simp at h
        exact ⟨b, o, h.symm⟩
      · intro d h
        rcases pre with _ | ⟨p1, _ | ⟨p2, pre⟩⟩ <;> simp at h
    · rw [hl]
      constructor
      · intro h
        rcases pre with _ | ⟨p1, _ | ⟨p2, pre⟩⟩ <;> simp at h
      · intro d h
        rcases pre with _ | ⟨p1, _ | ⟨p2, pre⟩⟩ <;> simp at h
    · rw [hl]
      constructor
      · intro h
        rcases pre with _ | ⟨p1, _ | ⟨p2, _ | ⟨p3, pre⟩⟩⟩ <;> simp at h
      · intro d h
        rcases pre with _ | ⟨p1, _ | ⟨p2, _ | ⟨p3, pre⟩⟩⟩ <;> simp at h
    · rw [hl]
      constructor
      · intro h
        rcases pre with _ | ⟨p1, _ | ⟨p2, _ | ⟨p3, pre⟩⟩⟩ <;> simp at h
      · intro d h
        rcases pre with _ | ⟨p1, _ | ⟨p2, _ | ⟨p3, pre⟩⟩⟩ <;> simp at h
        obtain ⟨rfl, rfl, rfl⟩ := h
        exact ⟨o, b, e, rfl, hlen, rfl, rfl⟩
    · rw [hl]
      constructor
      · intro h
        rcases pre with _ | ⟨p1, _ | ⟨p2, pre⟩⟩ <;> simp at h
        obtain ⟨rfl, rfl, hrest⟩ := h
        exact (ih _ _ _ _ _).1 hrest
      · intro d h
        rcases pre with _ | ⟨p1, _ | ⟨p2, pre⟩⟩ <;> simp at h
        obtain ⟨rfl, rfl, hrest⟩ := h
        obtain ⟨o2, b2, e2, hlast, h2, h3, h4⟩ := (ih _ _ _ _ _).2 d hrest
        refine ⟨o2, b2, e2, ?_, h2, h3, h4⟩
        cases pre with
        | nil => simp at hlast
        | cons q pre => simpa [List.getLast?_cons_cons] using hlast
    · rw [hl]
      constructor
      · intro h
        rcases pre with _ | ⟨p1, _ | ⟨p2, pre⟩⟩ <;> simp at h
        obtain ⟨rfl, rfl, hrest⟩ := h
        exact (ih _ _ _ _ _).1 hrest
      · intro d h
        rcases pre with _ | ⟨p1, _ | ⟨p2, pre⟩⟩ <;> simp at h
        obtain ⟨rfl, rfl, hrest⟩ := h
        obtain ⟨o2, b2, e2, hlast, h2, h3, h4⟩ := (ih _ _ _ _ _).2 d hrest
        refine ⟨o2, b2, e2, ?_, h2, h3, h4⟩
        cases pre with
        | nil => simp at hlast
        | cons q pre => simpa [List.getLast?_cons_cons] using hlast

/-- C4: once the loop of `StreamEvents` observes the cancellation it only
closes the channel.  (a) When the `select` of an empty-backoff wait receives
the stop signal, the wait was started by an empty successful fetch made with
counter `b`, had the delay `exp b`, and is followed by `close(ch)` alone, with
the counter still `b`: no further fetch, no item, no increment.  (b) When
the loop condition reads `stopped = true`, `close(ch)` alone follows.  Both
hold from every state of the loop: an iteration that reads the flag set, or
whose wait is ended by the stop signal, is the last one. -/
theorem StreamEvents_cancellation (lib : Lib) (sc : SplunkClient) (sid : GoString)
    (s : Schedule) (fuel : Nat) :
    (∀ pre post d, sc.StreamEvents lib sid s fuel = pre ++ .wait d true :: post →
      ∃ o b e, pre.getLast? = some (.fetch o b e .nil) ∧ e.Results.length = 0 ∧
        d = exp b ∧ post = [.close b o]) ∧
    (∀ pre post, sc.StreamEvents lib sid s fuel = pre ++ .stopped :: post →
      ∃ b o, post = [.close b o]) ∧
    (∀ i b o, s.stopped i = false → (sc.Events lib (s.net i) sid o).err = .nil →
      (sc.Events lib (s.net i) sid o).val.Results.length = 0 → s.stopCh i = true →
      streamLoop lib sc sid s (fuel + 1) i b o =
        [.fetch o b (sc.Events lib (s.net i) sid o).val .nil, .wait (exp b) true,
          .close b o]) ∧
    (∀ i b o, s.stopped i = true →
      streamLoop lib sc sid s (fuel + 1) i b o = [.stopped, .close b o]) := by
  refine ⟨?_, ?_, ?_, ?_⟩
  · intro pre post d h
    exact (streamLoop_stop lib sc sid s fuel 0 0 0 pre post).2 d h
  · intro pre post h
    exact (streamLoop_stop lib sc sid s fuel 0 0 0 pre post).1 h
  · intro i b o hst herr hlen hch
    rw [streamLoop]
    simp [hst, herr, hlen, hch]
  · intro i b o hst
    rw [streamLoop]
    simp [hst]

theorem StreamEvents_cancellation_witness :
    fixtureClient.StreamEvents fixtureLib (str "1.stailf") scenarioStop 10 =
      [.fetch 0 0 ⟨0, [], [some oneLine]⟩ .nil, .send (.events ⟨0, [], [some oneLine]⟩),
        .fetch 1 0 ⟨0, [], []⟩ .nil, .wait (500 * Millisecond) false,
        .fetch 1 1 ⟨0, [], [some oneLine]⟩ .nil, .send (.events ⟨0, [], [some oneLine]⟩),
        .stopped, .close 0 2] ∧
    (∃ b o, [Action.close 0 2] = [.close b o]) ∧
    (∃ pre post o b e, fixtureClient.StreamEvents fixtureLib (str "1.stailf") scenarioBackoff 10
        = pre ++ .wait (exp 1) true :: post ∧
      pre.getLast? = some (.fetch o b e .nil) ∧ post = [.close b o]) := by
  have h1 := StreamEvents_cancellation fixtureLib fixtureClient (str "1.stailf") scenarioStop 10
  have h2 := StreamEvents_cancellation fixtureLib fixtureClient (str "1.stailf") scenarioBackoff 10
  refine ⟨by decide, ?_, ?_⟩
  · exact h1.2.1
      [.fetch 0 0 ⟨0, [], [some oneLine]⟩ .nil, .send (.events ⟨0, [], [some oneLine]⟩),
        .fetch 1 0 ⟨0, [], []⟩ .nil, .wait (500 * Millisecond) false,
        .fetch 1 1 ⟨0, [], [some oneLine]⟩ .nil, .send (.events ⟨0, [], [some oneLine]⟩)]
      [.close 0 2] (by decide)
  · have hrun : fixtureClient.StreamEvents fixtureLib (str "1.stailf") scenarioBackoff 10 =
        (fixtureClient.StreamEvents fixtureLib (str "1.stailf") scenarioBackoff 10).take 11 ++
          .wait (exp 1) true ::
          (fixtureClient.StreamEvents fixtureLib (str "1.stailf") scenarioBackoff 10).drop 12 := by
      decide
    obtain ⟨o, b, e, hlast, _, _, hpost⟩ := h2.1 _ _ _ hrun
    exact ⟨_, _, o, b, e, hrun, hlast, hpost⟩


end Splunk


